import Mathlib

/-!
# Verification of the tech-docs-ai chat/ingestion core

A shallow embedding of the repository's core serving and ingestion logic:

* the data model (`internal/types/types.go`),
* the Redis cache layer (`internal/cache/redis.go`, `src/unnamed/part_000`):
  the four logical caches, `setWithValidation`, `hashText`, `GetHistory`,
* the query engine (`internal/app/service.go`, `src/unnamed/part_009`):
  `Chat`, `ChatWithHistory`, `getDocumentWithCache`, `AddDocument`,
  `storeResponseForLearning`,
* the Postgres document store (`internal/repo/postgres.go`): upsert-on-id
  `StoreDocument` and free-text `SearchDocuments`,
* the Kafka ingestion consumer and worker pool
  (`internal/kafka/consumer.go`).

Modelling conventions: Go timestamps are `Nat` ticks; `float32` similarity
scores and embedding components are `Rat` (the claims under study concern
only the strict-order gate `score > 0.7`, not rounding); external services
(embedding model, Qdrant, Redis backend, Postgres connection, scrapers) are
environment oracles returning `Except`/`Option` exactly where the Go calls
return `(value, error)`; JSON (de)serialisation of a typed value into the
cache is modelled by concrete encoders standing for `json.Marshal` (their
round-trip is the identity, as it is for the Go types involved).
-/

namespace TechDocsAI

/-- `internal/types/types.go`: `Document`.  `time.Time` fields are `Nat`
ticks, `0` standing for Go's zero time (`IsZero`). -/
structure Document where
  id : String
  title : String
  content : String
  category : String
  tags : List String
  author : String
  createdAt : Nat
  updatedAt : Nat
  metadata : List (String × String)
deriving DecidableEq, Repr, Inhabited

/-- A value of Go's `map[string]interface{}` vector-store metadata: the
code stores strings, string slices and booleans. A Go type assertion
`v.(string)` succeeds exactly on the `str` constructor. -/
inductive MetaVal where
  | str (s : String)
  | strList (l : List String)
  | boolv (b : Bool)
deriving DecidableEq, Repr

/-- `internal/types/types.go`: `SearchResult` — the vector index's
query-time projection. `Score` (Go `float32`) is a `Rat`. -/
structure SearchResult where
  id : String
  score : Rat
  metadata : List (String × MetaVal)
deriving DecidableEq, Repr

/-- `internal/types/types.go`: `ChatMessage`. -/
structure ChatMessage where
  id : String
  role : String
  content : String
  timestamp : Nat
deriving DecidableEq, Repr

/-- `internal/types/types.go`: `ChatSession`. -/
structure ChatSession where
  id : String
  userId : String
  createdAt : Nat
  updatedAt : Nat
  messages : List ChatMessage
deriving DecidableEq, Repr

/-- `internal/types/types.go`: `ScrapeJob`. -/
structure ScrapeJob where
  url : String
  category : String
  tags : List String
  jobId : String
deriving DecidableEq, Repr

/-- A record of the vector index: `StoreVector(vector, metadata)` pair. -/
structure VectorRecord where
  vector : List Rat
  metadata : List (String × MetaVal)
deriving DecidableEq, Repr

/-- `internal/scraper`: `ScrapedContent`, the extraction result handed to
`ConvertToDocument`. -/
structure ScrapedContent where
  url : String
  title : String
  content : String
  category : String
  tags : List String
  examples : List String
  metadata : List (String × String)
  timestamp : Nat
deriving DecidableEq, Repr

/-! ## The cache layer (`src/unnamed/part_000`, package `cache`) -/

/-- `MaxKeySize = 1024` (1 KB). -/
def maxKeySize : Nat := 1024

/-- `MaxValueSize = 5 * 1024 * 1024` (5 MB). -/
def maxValueSize : Nat := 5 * 1024 * 1024

/-- The physical Redis keyspace: key to serialised value, last write wins.
Models a healthy backend (connection errors are environment-oracle
territory in the service model below). -/
def RedisState : Type := List (String × String)

/-- A Redis `SET`: replace any previous value at the key. -/
def redisSet (st : RedisState) (key data : String) : RedisState :=
  (key, data) :: st.filter (fun kv => kv.1 ≠ key)

/-- A Redis `GET`. -/
def redisGet (st : RedisState) (key : String) : Option String :=
  List.lookup key st

/-- A Redis `DEL`. -/
def redisDel (st : RedisState) (key : String) : RedisState :=
  st.filter (fun kv => kv.1 ≠ key)

/-- `validateKey`: `len(key) > MaxKeySize` is a size-limit error. Go `len`
counts bytes, hence `String.utf8ByteSize`. -/
def validateKeyOk (key : String) : Bool := key.utf8ByteSize ≤ maxKeySize

/-- `validateValue`: `len(value) > MaxValueSize` is a size-limit error. -/
def validateValueOk (data : String) : Bool := data.utf8ByteSize ≤ maxValueSize

/-- `RedisCache.setWithValidation`: validate the key, marshal (the caller
passes the marshalled bytes `data`), validate the value, then `SET`. -/
def setWithValidation (st : RedisState) (key data : String) :
    Except String RedisState :=
  if ¬ validateKeyOk key then
    .error ("key size exceeds maximum allowed size of " ++ toString maxKeySize ++ " bytes")
  else if ¬ validateValueOk data then
    .error ("value size exceeds maximum allowed size of " ++ toString maxValueSize ++ " bytes")
  else
    .ok (redisSet st key data)

/-- `hashText` iterates `hash = ((hash << 5) - hash) + int(char)` over the
runes of `text` in a Go `int` (64-bit two's complement, each operation
wrapping); the line `hash = hash & hash` of the source is the identity on a
Go int and is dropped. `wrap64` is that wrap-around. -/
def wrap64 (z : Int) : Int := (z + 2 ^ 63) % 2 ^ 64 - 2 ^ 63

/-- One step of `hashText`'s loop body on rune `c`. -/
def hashTextStep (hash : Int) (c : Char) : Int :=
  wrap64 (wrap64 (wrap64 (hash * 2 ^ 5) - hash) + (c.toNat : Int))

/-- `hashText` (`src/unnamed/part_000` lines 448–456): the JS-style string
hash rendered in decimal with `fmt.Sprintf("%d", hash)`. -/
def hashText (text : String) : String :=
  toString (text.data.foldl hashTextStep 0)

/-- Cache key prefixes (`DocumentKeyPrefix` etc.). -/
def documentKeyPrefix : String := "doc:"

def embeddingKeyPrefix : String := "emb:"

def searchResultKeyPrefix : String := "search:"

def chatSessionKeyPrefix : String := "chat:"

/-! Concrete encoders standing for `json.Marshal` of the cached value
types. Their precise output format is irrelevant to every theorem below
except through `encodeVec`'s round-trip with `decodeVec` (JSON marshalling
of a `[]float32` round-trips) and through byte sizes, which grow with the
encoded fields exactly as JSON output does. -/

/-- Serialise an embedding vector (models `json.Marshal([]float32)`). -/
def encodeVec (v : List Rat) : String :=
  "[" ++ String.intercalate "," (v.map (fun q => toString q.num ++ "/" ++ toString q.den)) ++ "]"

/-- Serialise a document (models `json.Marshal(*types.Document)`). -/
def encodeDoc (d : Document) : String :=
  d.id ++ "|" ++ d.title ++ "|" ++ d.content ++ "|" ++ d.category ++ "|"
    ++ String.intercalate "," d.tags ++ "|" ++ d.author
    ++ "|" ++ toString d.createdAt ++ "|" ++ toString d.updatedAt
    ++ "|" ++ String.intercalate "," (d.metadata.map (fun kv => kv.1 ++ "=" ++ kv.2))

/-- Serialise a search-result document list. -/
def encodeDocs (l : List Document) : String :=
  String.intercalate ";" (l.map encodeDoc)

/-- Serialise a chat session (models `json.Marshal(*types.ChatSession)`). -/
def encodeSession (s : ChatSession) : String :=
  s.id ++ "|" ++ s.userId ++ "|" ++ toString s.createdAt ++ "|" ++ toString s.updatedAt
    ++ "|" ++ String.intercalate ";"
        (s.messages.map (fun m => m.id ++ "," ++ m.role ++ "," ++ m.content ++ "," ++ toString m.timestamp))

/-- `redisDocumentCache.Set`: the ONLY cache write routed through
`setWithValidation` (key `"doc:" + doc.ID`). -/
def docCacheSetS (st : RedisState) (doc : Document) : Except String RedisState :=
  setWithValidation st (documentKeyPrefix ++ doc.id) (encodeDoc doc)

/-- `redisEmbeddingCache.Set` (`src/unnamed/part_000` lines 299–311): key
`"emb:" + hashText(text)`, marshal, then a DIRECT `client.Set` — no size
validation.  On the healthy backend the write always succeeds. -/
def embCacheSetS (st : RedisState) (text : String) (v : List Rat) :
    Except String RedisState :=
  .ok (redisSet st (embeddingKeyPrefix ++ hashText text) (encodeVec v))

/-- `redisSearchCache.Set`: key `"search:query:<q>:limit:<n>"`, direct
`client.Set`, no size validation. -/
def searchCacheSetS (st : RedisState) (query : String) (limit : Nat) (docs : List Document) :
    Except String RedisState :=
  .ok (redisSet st (searchResultKeyPrefix ++ "query:" ++ query ++ ":limit:" ++ toString limit)
        (encodeDocs docs))

/-- `redisChatCache.SetSession`: key `"chat:" + session.ID`, direct
`client.Set`, no size validation. -/
def chatCacheSetSessionS (st : RedisState) (session : ChatSession) :
    Except String RedisState :=
  .ok (redisSet st (chatSessionKeyPrefix ++ session.id) (encodeSession session))

/-- `redisEmbeddingCache.Get`: `GET` the hashed key; a present entry
unmarshals back to the vector (round-trip of `encodeVec`), a missing key is
a cache miss (`redis.Nil` surfaced as the `"cache miss"` error). -/
def embCacheGetS (st : RedisState) (text : String) : Option String :=
  redisGet st (embeddingKeyPrefix ++ hashText text)

/-- `redisEmbeddingCache.Delete`: `DEL` the hashed key. -/
def embCacheDeleteS (st : RedisState) (text : String) : RedisState :=
  redisDel st (embeddingKeyPrefix ++ hashText text)

/-! ### The chat-session cache (`redisChatCache`) over typed state

`GetHistory`/`GetSession`/`AddMessage` read and write whole
`types.ChatSession` values through JSON; since that round-trips, the
session namespace of the healthy backend is modelled as a typed map from
session id to session. -/

def ChatCacheState : Type := List (String × ChatSession)

/-- `redisChatCache.GetSession`: `redis.Nil` (an absent key) is a cache
miss returned as `(nil, nil)`, hence `Option`. -/
def getSessionC (st : ChatCacheState) (sessionID : String) : Option ChatSession :=
  List.lookup sessionID st

/-- `redisChatCache.SetSession` on the typed session namespace. -/
def setSessionC (st : ChatCacheState) (session : ChatSession) : ChatCacheState :=
  (session.id, session) :: st.filter (fun kv => kv.1 ≠ session.id)

/-- `redisChatCache.AddMessage`: get the full session (creating one at
`now` if absent), append, write the full session back. -/
def addMessageC (st : ChatCacheState) (sessionID : String) (message : ChatMessage)
    (now : Nat) : ChatCacheState :=
  let session :=
    match getSessionC st sessionID with
    | some s => s
    | none => ⟨sessionID, "", now, now, []⟩
  setSessionC st { session with messages := session.messages ++ [message], updatedAt := now }

/-- `redisChatCache.GetHistory` (`src/unnamed/part_000` lines 430–446): an
unknown session yields `[]`; otherwise the whole message list when it has
at most `limit` entries, else the slice `messages[len-limit:]`. -/
def getHistoryC (st : ChatCacheState) (sessionID : String) (limit : Nat) :
    List ChatMessage :=
  match getSessionC st sessionID with
  | none => []
  | some session =>
      if session.messages.length ≤ limit then session.messages
      else session.messages.drop (session.messages.length - limit)

/-! ## The document store (`internal/repo/postgres.go`, package `repo`) -/

/-- The in-Go mutation at the head of `PostgresStore.StoreDocument`:
generate an id when absent, fill a zero `CreatedAt`, always stamp
`UpdatedAt` with `now` (`time.Now()`). -/
def storeDocumentGo (doc : Document) (now : Nat) : Document :=
  let doc := if doc.id = "" then { doc with id := "doc_" ++ toString now } else doc
  let doc := if doc.createdAt = 0 then { doc with createdAt := now } else doc
  { doc with updatedAt := now }

/-- The `INSERT … ON CONFLICT (id) DO UPDATE SET` of `StoreDocument`: an
existing row with the same id has title, content, category, tags, author,
updated_at and metadata replaced — `created_at` is NOT in the update list
and keeps the stored row's value; otherwise the row is inserted. -/
def upsertRow (rows : List Document) (d : Document) : List Document :=
  if rows.any (fun r => r.id == d.id) then
    rows.map (fun old =>
      if old.id == d.id then
        { old with title := d.title, content := d.content, category := d.category,
                   tags := d.tags, author := d.author, updatedAt := d.updatedAt,
                   metadata := d.metadata }
      else old)
  else rows ++ [d]

/-- `PostgresStore.StoreDocument` over the table state: returns the new
table and the (mutated) document the caller's pointer now holds. -/
def storeDocumentP (rows : List Document) (doc : Document) (now : Nat) :
    List Document × Document :=
  let d := storeDocumentGo doc now
  (upsertRow rows d, d)

/-- Case-sensitive substring test (Go `strings.Contains`). -/
def strContains (s pat : String) : Bool :=
  s.data.tails.any (fun t => pat.data.isPrefixOf t)

/-- ASCII lower-casing of a string, character by character (what
`strings.ToLower`/SQL `lower` do on the ASCII range; spelled out because
`String.toLower`'s positional implementation does not reduce in the
kernel). -/
def toLowerStr (s : String) : String := String.mk (s.data.map Char.toLower)

/-- SQL `ILIKE '%query%'`: case-insensitive substring match. -/
def containsCI (s pat : String) : Bool := strContains (toLowerStr s) (toLowerStr pat)

/-- The `WHERE` clause of `PostgresStore.SearchDocuments`: the query
matches a row when it is an ILIKE substring of its title, content or
category — metadata is NOT searched. -/
def matchesQuery (query : String) (d : Document) : Bool :=
  containsCI d.title query || containsCI d.content query || containsCI d.category query

/-- Insertion into a list sorted by `created_at` descending. -/
def insertByCreatedDesc (d : Document) : List Document → List Document
  | [] => [d]
  | x :: xs =>
      if x.createdAt ≤ d.createdAt then d :: x :: xs
      else x :: insertByCreatedDesc d xs

/-- `ORDER BY created_at DESC` (insertion sort; SQL leaves ties
unspecified, any stable order is a faithful rendering). -/
def sortByCreatedDesc : List Document → List Document
  | [] => []
  | x :: xs => insertByCreatedDesc x (sortByCreatedDesc xs)

/-- `PostgresStore.SearchDocuments` (lines 189–239): filter by the ILIKE
clause, `ORDER BY created_at DESC`, `LIMIT limit`. -/
def searchDocumentsP (rows : List Document) (query : String) (limit : Nat) :
    List Document :=
  (sortByCreatedDesc (rows.filter (matchesQuery query))).take limit

/-! ## The query engine (`internal/app/service.go`, `src/unnamed/part_009`)

External collaborators are oracles in an environment record: each field is
one interface call of the Go service, returning `Except`/`Option` exactly
where the Go call returns an error. An `Except.error` from `embCacheGet`
covers both the `"cache miss"` signal and a backend error — `Chat` treats
every error as a miss, exactly as the source does. `docPutErr`/`vecPutErr`
give the error outcome of a store write whose success case is applied to
the explicit `World` state below. -/

structure Env where
  embCacheGet : String → Except String (List Rat)
  embCacheSet : String → List Rat → Except String Unit
  embed : String → Except String (List Rat)
  complete : String → Except String String
  searchVector : List Rat → Nat → Except String (List SearchResult)
  docCacheGet : String → Except String (Option Document)
  docCacheSet : Document → Except String Unit
  docStoreGet : String → Except String (Option Document)
  docPutErr : Document → Option String
  vecPutErr : List Rat → List (String × MetaVal) → Option String
  searchCacheDelete : String → Except String Unit
  sessGet : String → Except String (Option ChatSession)
  sessSet : ChatSession → Except String Unit
  addMessageErr : String → ChatMessage → Option String
  scrapeW3 : String → Nat → Except String ScrapedContent
  scrapeUniversal : String → Nat → Except String ScrapedContent
  now : Nat

/-- The document and vector stores' contents. -/
structure World where
  docs : List Document
  vectors : List VectorRecord
deriving DecidableEq, Repr

/-- `Service.getDocumentWithCache`: document cache first (any error or a
`nil` document falls through), then the store — a store error propagates;
a fetched document is cached best-effort (result discarded). -/
def getDocumentWithCache (env : Env) (id : String) : Except String (Option Document) :=
  match env.docCacheGet id with
  | .ok (some doc) => .ok (some doc)
  | _ =>
      match env.docStoreGet id with
      | .error e => .error e
      | .ok doc =>
          let _ := match doc with
                   | some d => env.docCacheSet d
                   | none => .ok ()
          .ok doc

/-- Step 1 of `Chat` (and the embedding step of `AddDocument`): embedding
cache lookup; on any error (miss or backend) call the embedding client and
populate the cache best-effort (the `Set` result is discarded). -/
def cacheOrEmbed (env : Env) (text : String) : Except String (List Rat) :=
  match env.embCacheGet text with
  | .ok v => .ok v
  | .error _ =>
      match env.embed text with
      | .error e => .error e
      | .ok v =>
          let _ := env.embCacheSet text v
          .ok v

/-- The context entry a resolved document contributes:
`fmt.Sprintf("Title: %s\nContent: %s", doc.Title, doc.Content)`. -/
def contextEntry (doc : Document) : String :=
  "Title: " ++ doc.title ++ "\nContent: " ++ doc.content

/-- Step 3 of `Chat`: the `for _, result := range searchResults` loop
accumulating `contextDocs`, `tutorialData` and `hasRelevantContent`. A
result contributes only when its `document_id` metadata type-asserts to a
string, the document resolves through `getDocumentWithCache`, and
`result.Score > 0.7`. -/
def chatContextStep (env : Env) (acc : List String × List String × Bool)
    (result : SearchResult) : List String × List String × Bool :=
  match List.lookup "document_id" result.metadata with
  | some (MetaVal.str docID) =>
      match getDocumentWithCache env docID with
      | .ok (some doc) =>
          if result.score > (7 : Rat) / 10 then
            (acc.1 ++ [contextEntry doc], acc.2.1 ++ [doc.content], true)
          else acc
      | _ => acc
  | _ => acc

/-- The loop of `Chat`'s step 3 over the whole result list. -/
def chatContextFold (env : Env) (searchResults : List SearchResult) :
    List String × List String × Bool :=
  searchResults.foldl (chatContextStep env) ([], [], false)

/-- The fixed tail of `Chat`'s grounded tutorial prompt (after
`"%sUser Question: %s"`). -/
def chatGroundedTemplate : String :=
  "\n\nPlease generate a comprehensive tutorial in Markdown format based on the documentation above. Structure your response as follows:\n\n# [Topic Name] Tutorial\n\n## Overview\n[Brief 2-3 sentence explanation of the topic]\n\n## What You\x27ll Learn\n- [Learning objective 1]\n- [Learning objective 2]\n- [Learning objective 3]\n\n## Prerequisites\n- [Prerequisite 1]\n- [Prerequisite 2]\n\n## Step-by-Step Guide\n\n### Step 1: [First Step]\n[Detailed explanation with examples]\n\n### Step 2: [Second Step]\n[Detailed explanation with examples]\n\n### Step 3: [Third Step]\n[Detailed explanation with examples]\n\n## Code Examples\n\n### Basic Example\n```[language]\n[Code example here]\n```\n\n### Advanced Example\n```[language]\n[More complex code example]\n```\n\n## Best Practices\n- [Best practice 1]\n- [Best practice 2]\n- [Best practice 3]\n\n## Common Pitfalls to Avoid\n- [Pitfall 1]\n- [Pitfall 2]\n\n## Summary\n[Brief summary of what was covered]\n\n## Next Steps\n- [What to learn next 1]\n- [What to learn next 2]\n\nKeep the tutorial comprehensive, well-structured, and beginner-friendly. Use proper Markdown formatting with headers, code blocks, and bullet points."

/-- The fixed tail of `Chat`'s ungrounded prompt (after
`"User Question: %s"`). -/
def chatUngroundedTemplate : String :=
  "\n\nPlease provide a helpful and informative tutorial in Markdown format about this topic. If you don\x27t have specific information, provide general guidance and suggest where they might find more detailed information.\n\nStructure your response as a well-formatted Markdown tutorial with:\n\n# [Topic Name]\n\n## Overview\n[Brief explanation]\n\n## Key Concepts\n- [Concept 1]\n- [Concept 2]\n\n## Getting Started\n[Basic steps]\n\n## Examples\n[Practical examples]\n\n## Resources\n[Where to learn more]\n\nUse proper Markdown formatting with headers, code blocks, and bullet points."

/-- Steps 3–4 of `Chat`: the prompt handed to the completion model. -/
def chatPrompt (env : Env) (message : String) (searchResults : List SearchResult) : String :=
  let folded := chatContextFold env searchResults
  let contextDocs := folded.1
  let hasRelevantContent := folded.2.2
  let context :=
    if hasRelevantContent && contextDocs.length > 0 then
      "Based on the following relevant documentation:\n\n"
        ++ String.intercalate "\n\n" contextDocs ++ "\n\n"
    else ""
  if hasRelevantContent then
    context ++ "User Question: " ++ message ++ chatGroundedTemplate
  else
    "User Question: " ++ message ++ chatUngroundedTemplate

/-- `Service.Chat` (`src/unnamed/part_009` lines 321–410). The second
component records the detached `go s.storeResponseForLearning(message,
response, hasRelevantContent)` call: it is fired after a successful
completion and runs outside the request (see
`storeResponseForLearningW`). -/
def chat (env : Env) (message : String) :
    Except String String × Option (String × String × Bool) :=
  match cacheOrEmbed env message with
  | .error e => (.error ("failed to embed query: " ++ e), none)
  | .ok queryVector =>
      match env.searchVector queryVector 5 with
      | .error e => (.error ("failed to search vectors: " ++ e), none)
      | .ok searchResults =>
          let tutorialPrompt := chatPrompt env message searchResults
          match env.complete tutorialPrompt with
          | .error e => (.error ("failed to generate tutorial response: " ++ e), none)
          | .ok response =>
              let hasRelevantContent := (chatContextFold env searchResults).2.2
              (.ok response, some (message, response, hasRelevantContent))

/-- `truncateString` (chars stand for Go's byte slicing; the claims do
not depend on multi-byte behaviour). -/
def truncateString (s : String) (maxLen : Nat) : String :=
  if s.length ≤ maxLen then s else (s.take (maxLen - 3)) ++ "..."

/-- The `responseDoc` built by `storeResponseForLearning`. -/
def responseDocOf (userQuery llmResponse : String) (wasBasedOnScrapedData : Bool)
    (now : Nat) : Document :=
  { id := "response_" ++ toString now,
    title := "AI Response: " ++ truncateString userQuery 50,
    content := llmResponse,
    category := "AI_Response",
    tags := ["ai-response", "user-generated", "learning"],
    author := "AI_Assistant",
    createdAt := now, updatedAt := now,
    metadata := [("user_query", userQuery),
                 ("was_based_on_scraped", if wasBasedOnScrapedData then "true" else "false"),
                 ("response_type", "tutorial")] }

/-- The vector metadata of the learning write-back. -/
def learningMetadata (d : Document) (userQuery : String) : List (String × MetaVal) :=
  [("document_id", .str d.id), ("title", .str d.title), ("category", .str d.category),
   ("tags", .strList d.tags), ("author", .str d.author), ("source", .str "ai-response"),
   ("user_query", .str userQuery), ("response_type", .str "tutorial"),
   ("learning_data", .boolv true)]

/-- `Service.storeResponseForLearning` (lines 413–469) as a world
transformer: embed the response (failure: log and stop), store the
document (failure: log and stop — NO vector is written), cache it
best-effort, then store the vector. -/
def storeResponseForLearningW (env : Env) (w : World)
    (userQuery llmResponse : String) (wasBasedOnScrapedData : Bool) (now : Nat) : World :=
  match env.embed llmResponse with
  | .error _ => w
  | .ok responseVector =>
      let responseDoc := responseDocOf userQuery llmResponse wasBasedOnScrapedData now
      let stored := storeDocumentP w.docs responseDoc now
      match env.docPutErr stored.2 with
      | some _ => w
      | none =>
          let w1 : World := { w with docs := stored.1 }
          let _ := env.docCacheSet stored.2
          let metadata := learningMetadata stored.2 userQuery
          match env.vecPutErr responseVector metadata with
          | some _ => w1
          | none => { w1 with vectors := w1.vectors ++ [⟨responseVector, metadata⟩] }

/-- The vector metadata of `Service.AddDocument`. -/
def addDocumentMetadata (d : Document) : List (String × MetaVal) :=
  [("document_id", .str d.id), ("title", .str d.title), ("category", .str d.category),
   ("tags", .strList d.tags), ("author", .str d.author)]

/-- `Service.AddDocument` (lines 504–547): embed (cache-first), store the
document (failure aborts — NO vector is written), cache it best-effort,
store the vector, then invalidate the search cache for the category. -/
def addDocumentW (env : Env) (w : World) (doc : Document) (now : Nat) :
    World × Except String Unit :=
  match cacheOrEmbed env doc.content with
  | .error e => (w, .error ("failed to embed document: " ++ e))
  | .ok vector =>
      let stored := storeDocumentP w.docs doc now
      match env.docPutErr stored.2 with
      | some e => (w, .error ("failed to store document: " ++ e))
      | none =>
          let w1 : World := { w with docs := stored.1 }
          let _ := env.docCacheSet stored.2
          let metadata := addDocumentMetadata stored.2
          match env.vecPutErr vector metadata with
          | some e => (w1, .error ("failed to store vector: " ++ e))
          | none =>
              let w2 : World := { w1 with vectors := w1.vectors ++ [⟨vector, metadata⟩] }
              let _ := env.searchCacheDelete stored.2.category
              (w2, .ok ())

/-! ### `ChatWithHistory` and the session-backed helpers -/

/-- `Service.GetChatSession`: a missing session is lazily created at `now`
and written back best-effort (the `SetSession` result is discarded); a
cache backend error propagates. -/
def getChatSessionSvc (env : Env) (sessionID : String) :
    Except String (Option ChatSession) :=
  match env.sessGet sessionID with
  | .error e => .error e
  | .ok (some session) => .ok (some session)
  | .ok none =>
      let session : ChatSession :=
        { id := sessionID, userId := "", createdAt := env.now, updatedAt := env.now,
          messages := [] }
      let _ := env.sessSet session
      .ok (some session)

/-- The last-`limit` slice `redisChatCache.GetHistory` takes of a fetched
session (`nil` session: empty history). -/
def getHistoryFromSession (session? : Option ChatSession) (limit : Nat) :
    List ChatMessage :=
  match session? with
  | none => []
  | some session =>
      if session.messages.length ≤ limit then session.messages
      else session.messages.drop (session.messages.length - limit)

/-- `Service.GetChatHistory` = `redisChatCache.GetHistory` through the
session oracle, wrapping a backend error as `"failed to get session:"`. -/
def getChatHistorySvc (env : Env) (sessionID : String) (limit : Nat) :
    Except String (List ChatMessage) :=
  match env.sessGet sessionID with
  | .error e => .error ("failed to get session: " ++ e)
  | .ok s => .ok (getHistoryFromSession s limit)

/-- The loop of `ChatWithHistory` accumulating `contextDocs` and
`hasRelevantContent` — the same gate as `Chat`'s loop, without the
`tutorialData` accumulator. -/
def historyContextStep (env : Env) (acc : List String × Bool)
    (result : SearchResult) : List String × Bool :=
  match List.lookup "document_id" result.metadata with
  | some (MetaVal.str docID) =>
      match getDocumentWithCache env docID with
      | .ok (some doc) =>
          if result.score > (7 : Rat) / 10 then
            (acc.1 ++ [contextEntry doc], true)
          else acc
      | _ => acc
  | _ => acc

/-- The loop of `ChatWithHistory` over the whole result list. -/
def historyContextFold (env : Env) (searchResults : List SearchResult) :
    List String × Bool :=
  searchResults.foldl (historyContextStep env) ([], false)

/-- The `"Previous conversation:"` prefix built from the loaded history. -/
def conversationContext (history : List ChatMessage) : String :=
  if history.length > 0 then
    "Previous conversation:\n"
      ++ String.join (history.map (fun m => m.role ++ ": " ++ m.content ++ "\n"))
      ++ "\n"
  else ""

/-- The grounded instruction tail of `ChatWithHistory`'s prompt. -/
def historyGroundedTemplate : String :=
  "Please generate a short, focused tutorial in Markdown format based on the documentation above. Consider the conversation history for context. Structure your response as follows:\n\n# Quick Tutorial: [Topic Name]\n\n## What is [Topic]?\n[Brief 1-2 sentence explanation]\n\n## Key Concepts:\n- [Concept 1]\n- [Concept 2]\n- [Concept 3]\n\n## Basic Example:\n```[language]\n[Provide a simple, practical example]\n```\n\n## Common Use Cases:\n- [Use case 1]\n- [Use case 2]\n\n## Tips:\n- [Tip 1]\n- [Tip 2]\n\nKeep the tutorial concise, practical, and beginner-friendly. Use proper Markdown formatting."

/-- The ungrounded instruction tail of `ChatWithHistory`'s prompt. -/
def historyUngroundedTemplate : String :=
  "Please provide a helpful and informative tutorial in Markdown format about this topic. Consider the conversation history for context. If you don\x27t have specific information, provide general guidance and suggest where they might find more detailed information.\n\nStructure your response as a well-formatted Markdown tutorial with proper headers, code blocks, and bullet points."

/-- The `strings.Builder` prompt of `ChatWithHistory`. -/
def historyPrompt (env : Env) (message : String) (history : List ChatMessage)
    (searchResults : List SearchResult) : String :=
  let folded := historyContextFold env searchResults
  let contextDocs := folded.1
  let hasRelevantContent := folded.2
  conversationContext history
    ++ (if hasRelevantContent && contextDocs.length > 0 then
          "Based on the following relevant documentation:\n\n"
            ++ String.intercalate "\n\n" contextDocs ++ "\n\n"
        else "")
    ++ "Current user question: " ++ message ++ "\n\n"
    ++ (if hasRelevantContent then historyGroundedTemplate else historyUngroundedTemplate)

/-- `Service.ChatWithHistory` (`src/unnamed/part_009` lines 733–822).
Note: unlike `Chat`, the query embedding comes from a DIRECT
`s.embClient.Embed(message)` call — the embedding cache is neither read
nor written on this path. The two `AddChatMessage` calls after completion
only log their errors (results discarded), and the final learning
write-back is the detached second component, as in `chat`. -/
def chatWithHistory (env : Env) (sessionID message : String) :
    Except String String × Option (String × String × Bool) :=
  match getChatSessionSvc env sessionID with
  | .error e => (.error ("failed to get chat session: " ++ e), none)
  | .ok _ =>
      match getChatHistorySvc env sessionID 10 with
      | .error e => (.error ("failed to get chat history: " ++ e), none)
      | .ok history =>
          match env.embed message with
          | .error e => (.error ("failed to embed query: " ++ e), none)
          | .ok queryVector =>
              match env.searchVector queryVector 5 with
              | .error e => (.error ("failed to search vectors: " ++ e), none)
              | .ok searchResults =>
                  let prompt := historyPrompt env message history searchResults
                  match env.complete prompt with
                  | .error e => (.error ("failed to generate response: " ++ e), none)
                  | .ok response =>
                      let _ := env.addMessageErr sessionID
                        { id := "msg_" ++ toString env.now, role := "user",
                          content := message, timestamp := env.now }
                      let _ := env.addMessageErr sessionID
                        { id := "msg_" ++ toString env.now, role := "assistant",
                          content := response, timestamp := env.now }
                      let hasRelevantContent := (historyContextFold env searchResults).2
                      (.ok response, some (message, response, hasRelevantContent))

/-! ## The ingestion pipeline (`internal/kafka/consumer.go`) -/

/-- `W3SchoolsScraper.ConvertToDocument`'s content assembly: append the
code examples section when any exist. -/
def combineExamplesW3 (content : String) (examples : List String) : String :=
  if examples.length > 0 then
    content ++ "\n\nCode Examples:\n"
      ++ String.join (examples.enum.map (fun p =>
            "\nExample " ++ toString (p.1 + 1) ++ ":\n" ++ p.2 ++ "\n"))
  else content

/-- `W3SchoolsScraper.ConvertToDocument` (`src/unnamed/part_001`): id
`"w3s_<timestamp>"`; the page URL ends up ONLY in `metadata["url"]`, never
in title, content or category. -/
def convertToDocumentW3 (c : ScrapedContent) : Document :=
  { id := "w3s_" ++ toString c.timestamp, title := c.title,
    content := combineExamplesW3 c.content c.examples,
    category := c.category, tags := c.tags,
    author := (List.lookup "author" c.metadata).getD "",
    createdAt := c.timestamp, updatedAt := c.timestamp,
    metadata := c.metadata }

/-- `UniversalScraper.ConvertToDocument`'s content assembly. -/
def combineExamplesUniversal (content : String) (examples : List String) : String :=
  if examples.length > 0 then
    content ++ "\n\n## Code Examples\n\n"
      ++ String.join (examples.enum.map (fun p =>
            "### Example " ++ toString (p.1 + 1) ++ "\n\n```\n" ++ p.2 ++ "\n```\n\n"))
  else content

/-- `UniversalScraper.ConvertToDocument` (`src/unnamed/part_002`): id
`"universal_<timestamp>"`; the URL again only reaches `metadata`. -/
def convertToDocumentUniversal (c : ScrapedContent) : Document :=
  { id := "universal_" ++ toString c.timestamp, title := c.title,
    content := combineExamplesUniversal c.content c.examples,
    category := c.category, tags := c.tags,
    author := (List.lookup "author" c.metadata).getD "",
    createdAt := c.timestamp, updatedAt := c.timestamp,
    metadata := c.metadata }

/-- The vector metadata of `Consumer.storeDocumentWithVector`. -/
def consumerVecMetadata (d : Document) (source : String) : List (String × MetaVal) :=
  [("document_id", .str d.id), ("title", .str d.title), ("category", .str d.category),
   ("tags", .strList d.tags), ("author", .str d.author), ("source", .str source)]

/-- `Consumer.storeDocumentWithVector`: embed the content, store the
document in Postgres (failure aborts — NO vector is written), then store
the vector tagged with the extractor source. -/
def storeDocumentWithVectorW (env : Env) (w : World) (doc : Document) (url : String)
    (now : Nat) : World × Except String Unit :=
  match env.embed doc.content with
  | .error e => (w, .error ("failed to embed document: " ++ e))
  | .ok vector =>
      let stored := storeDocumentP w.docs doc now
      match env.docPutErr stored.2 with
      | some e => (w, .error ("failed to store document: " ++ e))
      | none =>
          let w1 : World := { w with docs := stored.1 }
          let source := if strContains url "w3schools.com" then "w3schools" else "universal"
          let metadata := consumerVecMetadata stored.2 source
          match env.vecPutErr vector metadata with
          | some e => (w1, .error ("failed to store vector: " ++ e))
          | none => ({ w1 with vectors := w1.vectors ++ [⟨vector, metadata⟩] }, .ok ())

/-- `Consumer.processMessage` on an already-unmarshalled job (an
unmarshalling failure drops the message before any of this runs): the
dedup check searches the Document Store for the job's URL as free text
with limit 1 and any hit skips the job entirely; then the extractor is
chosen by URL pattern, the job's category/tags override the scraped ones,
and the result is persisted. Any stage error drops the job, leaving the
world unchanged. `tick` is the wall clock of this processing. -/
def processMessage (env : Env) (w : World) (job : ScrapeJob) (tick : Nat) : World :=
  if (searchDocumentsP w.docs job.url 1).length > 0 then w
  else
    let scraped :=
      if strContains job.url "w3schools.com" then env.scrapeW3 job.url tick
      else env.scrapeUniversal job.url tick
    match scraped with
    | .error _ => w
    | .ok content =>
        let doc :=
          if strContains job.url "w3schools.com" then convertToDocumentW3 content
          else convertToDocumentUniversal content
        let doc := if job.category ≠ "" then { doc with category := job.category } else doc
        let doc := if job.tags.length > 0 then { doc with tags := doc.tags ++ job.tags } else doc
        (storeDocumentWithVectorW env w doc job.url tick).1

/-! ## The worker pool (`internal/kafka/consumer.go` lines 179–241)

`Submit` is `select { case p.jobQueue <- job: … case <-p.ctx.Done(): … }`
over a buffered channel of capacity `workers*2`. A labelled transition
relation renders Go's channel/select semantics: the send case is ready
exactly when the buffer has space, the done case exactly once the pool's
context is cancelled, and when several cases are ready `select` picks one
pseudo-randomly — hence both transitions may be enabled at once. A worker
between jobs is a receiver: it takes the queue's head or, once cancelled,
may exit; queued jobs at shutdown are never executed once every worker has
exited (discarded, not drained). -/

structure PoolState (J : Type) where
  queue : List J
  capacity : Nat
  down : Bool
deriving DecidableEq, Repr

/-- `NewWorkerPool(workers)`: empty buffered queue of capacity
`workers*2`, context not yet cancelled. -/
def newPoolState (J : Type) (workers : Nat) : PoolState J :=
  { queue := [], capacity := workers * 2, down := false }

/-- `NewConsumer` builds its pool as `NewWorkerPool(5)`. -/
def consumerPoolWorkers : Nat := 5

inductive PoolEvent (J : Type) where
  | submitted (j : J)
  | rejected (j : J)
  | executed (j : J)
  | shutdownBegun
deriving DecidableEq, Repr

/-- One observable step of the pool. `submitAccept` is the send case of
`Submit`'s select (ready iff the buffer has a free slot — even during
shutdown, since select chooses among ready cases); `submitReject` is its
done case (ready iff cancelled); `workerExec` is a worker receiving the
queue head; `beginShutdown` is `Shutdown`'s `cancel()`. A full queue with
the pool live enables no submit transition: the submitter blocks. -/
inductive PoolStep {J : Type} : PoolState J → PoolEvent J → PoolState J → Prop where
  | submitAccept (s : PoolState J) (j : J) (h : s.queue.length < s.capacity) :
      PoolStep s (.submitted j) { s with queue := s.queue ++ [j] }
  | submitReject (s : PoolState J) (j : J) (h : s.down = true) :
      PoolStep s (.rejected j) s
  | workerExec (s : PoolState J) (j : J) (rest : List J) (h : s.queue = j :: rest) :
      PoolStep s (.executed j) { s with queue := rest }
  | beginShutdown (s : PoolState J) :
      PoolStep s .shutdownBegun { s with down := true }

/-! ## Helper lemmas -/

theorem lookup_filter_ne {α : Type} (l : List (String × α)) (key : String) :
    List.lookup key (l.filter (fun kv => kv.1 ≠ key)) = none := by
  induction l with
  | nil => rfl
  | cons kv rest ih =>
      rw [List.filter_cons]
      by_cases h : kv.1 = key
      · have hd : (decide (kv.1 ≠ key)) = false := by simp [h]
        rw [hd]
        simpa using ih
      · have hd : (decide (kv.1 ≠ key)) = true := by simp [h]
        rw [hd]
        have hbeq : (key == kv.1) = false := by
          simp only [beq_eq_false_iff_ne, ne_eq]
          exact fun hk => h hk.symm
        simp only [if_true, List.lookup, hbeq]
        exact ih

theorem lookup_filter_other {α : Type} (l : List (String × α)) (key other : String)
    (h : key ≠ other) :
    List.lookup key (l.filter (fun kv => kv.1 ≠ other)) = List.lookup key l := by
  induction l with
  | nil => rfl
  | cons kv rest ih =>
      rw [List.filter_cons]
      by_cases hk : kv.1 = other
      · have hd : (decide (kv.1 ≠ other)) = false := by simp [hk]
        have hbeq : (key == kv.1) = false := by
          simp only [beq_eq_false_iff_ne, ne_eq, hk]
          exact h
        rw [hd]
        simp only [Bool.false_eq_true, if_false, List.lookup, hbeq]
        exact ih
      · have hd : (decide (kv.1 ≠ other)) = true := by simp [hk]
        rw [hd]
        simp only [if_true, List.lookup]
        cases hkv : (key == kv.1)
        · simpa using ih
        · rfl

/-- After an upsert a row with the written id is always present. -/
theorem upsertRow_mem_id (rows : List Document) (d : Document) :
    ∃ row ∈ upsertRow rows d, row.id = d.id := by
  unfold upsertRow
  by_cases h : rows.any (fun r => r.id == d.id)
  · simp only [h, if_true]
    obtain ⟨old, hmem, hid⟩ := List.any_eq_true.mp h
    refine ⟨_, List.mem_map_of_mem _ hmem, ?_⟩
    simp [beq_iff_eq] at hid
    simp [hid]
  · simp only [h, if_false]
    exact ⟨d, List.mem_append_right _ (List.mem_singleton.mpr rfl), rfl⟩

/-- `storeDocumentGo` on a document that already carries an id keeps every
field except the timestamps it stamps. -/
theorem storeDocumentGo_fields (doc : Document) (now : Nat) (hid : doc.id ≠ "") :
    (storeDocumentGo doc now).id = doc.id
  ∧ (storeDocumentGo doc now).title = doc.title
  ∧ (storeDocumentGo doc now).content = doc.content
  ∧ (storeDocumentGo doc now).category = doc.category
  ∧ (storeDocumentGo doc now).tags = doc.tags
  ∧ (storeDocumentGo doc now).author = doc.author
  ∧ (storeDocumentGo doc now).updatedAt = now
  ∧ (storeDocumentGo doc now).metadata = doc.metadata := by
  unfold storeDocumentGo
  by_cases hc : doc.createdAt = 0 <;> simp [hid, hc]

/-! ## C4 — `GetHistory` returns the last `min(len, limit)` messages -/

/-- C4: for every stored session and non-negative limit,
`GetHistory(sessionID, limit)` is the last `min(len(messages), limit)`
messages in original append order (a suffix of the stored list), and an
unknown session yields the empty list. -/
theorem getHistory_last_min (st : ChatCacheState) (sessionID : String) (limit : Nat) :
    (getSessionC st sessionID = none → getHistoryC st sessionID limit = [])
  ∧ (∀ session, getSessionC st sessionID = some session →
      getHistoryC st sessionID limit
          = session.messages.drop (session.messages.length - min session.messages.length limit)
      ∧ (getHistoryC st sessionID limit).length = min session.messages.length limit
      ∧ List.IsSuffix (getHistoryC st sessionID limit) session.messages) := by
  unfold getHistoryC
  constructor
  · intro h; rw [h]
  · intro session h
    rw [h]
    by_cases hle : session.messages.length ≤ limit
    · have hmin : min session.messages.length limit = session.messages.length :=
        Nat.min_eq_left hle
      simp only [hle, if_true, hmin, Nat.sub_self, List.drop_zero]
      exact ⟨trivial, trivial, List.suffix_refl _⟩
    · have hlim : limit ≤ session.messages.length :=
        Nat.le_of_lt (Nat.lt_of_not_le hle)
      have hmin : min session.messages.length limit = limit := Nat.min_eq_right hlim
      simp only [hle, if_false, hmin]
      refine ⟨trivial, ?_, List.drop_suffix _ _⟩
      simp [List.length_drop, Nat.sub_sub_self hlim]

/-- The spec's own boundary example: a session holding 15 messages and
`limit = 10` yields messages 6 through 15 in order; an unknown session
yields `[]`. -/
def c4Messages : List ChatMessage :=
  (List.range 15).map (fun i => ⟨toString i, "user", toString i, i⟩)

def c4State : ChatCacheState := [("s", ⟨"s", "u", 0, 0, c4Messages⟩)]

/-- Witness for C4 at the spec's concrete 15-message / limit-10 input. -/
theorem getHistory_last_min_example :
    getHistoryC c4State "s" 10 = c4Messages.drop 5
  ∧ (getHistoryC c4State "s" 10).length = 10
  ∧ getHistoryC c4State "unknown" 10 = [] := by
  have h := (getHistory_last_min c4State "s" 10).2 ⟨"s", "u", 0, 0, c4Messages⟩ rfl
  exact ⟨h.1, h.2.1, (getHistory_last_min c4State "unknown" 10).1 rfl⟩

/-! ## C6 — upsert-on-id preserves `created_at` -/

/-- C6: storing a document whose id already exists replaces title,
content, category, tags, author, updated_at and metadata but keeps the
stored row's original `created_at`. -/
theorem storeDocument_upsert_preserves_createdAt (rows : List Document)
    (doc old : Document) (now : Nat) (hid : doc.id ≠ "") (hmem : old ∈ rows)
    (hold : old.id = doc.id) :
    ∃ row ∈ (storeDocumentP rows doc now).1,
      row.id = doc.id ∧ row.title = doc.title ∧ row.content = doc.content
      ∧ row.category = doc.category ∧ row.tags = doc.tags ∧ row.author = doc.author
      ∧ row.updatedAt = now ∧ row.metadata = doc.metadata
      ∧ row.createdAt = old.createdAt := by
  obtain ⟨hgid, hgt, hgc, hgcat, hgtags, hga, hgu, hgm⟩ := storeDocumentGo_fields doc now hid
  unfold storeDocumentP upsertRow
  have hany : (rows.any (fun r => r.id == (storeDocumentGo doc now).id)) = true :=
    List.any_eq_true.mpr ⟨old, hmem, by simp [beq_iff_eq, hgid, hold]⟩
  simp only [hany, if_true]
  refine ⟨_, List.mem_map_of_mem _ hmem, ?_⟩
  have heq : (old.id == (storeDocumentGo doc now).id) = true := by
    simp [beq_iff_eq, hgid, hold]
  simp [heq, hold, hgid, hgt, hgc, hgcat, hgtags, hga, hgu, hgm]

def c6Old : Document := ⟨"d1", "Old title", "old content", "cat", ["t"], "alice", 100, 100, [("k", "v")]⟩

def c6New : Document := ⟨"d1", "New title", "new content", "cat2", ["t2"], "bob", 0, 0, [("k2", "v2")]⟩

/-- Witness for C6: rewriting id `"d1"` with new fields at time 200 keeps
`created_at = 100`. -/
theorem storeDocument_upsert_preserves_createdAt_example :
    ∃ row ∈ (storeDocumentP [c6Old] c6New 200).1,
      row.id = c6New.id ∧ row.title = c6New.title ∧ row.content = c6New.content
      ∧ row.category = c6New.category ∧ row.tags = c6New.tags ∧ row.author = c6New.author
      ∧ row.updatedAt = 200 ∧ row.metadata = c6New.metadata
      ∧ row.createdAt = c6Old.createdAt :=
  storeDocument_upsert_preserves_createdAt [c6Old] c6New c6Old 200 (by decide)
    (List.mem_singleton.mpr rfl) rfl

/-! ## C10 — the embedding cache's hash addressing -/

/-- The key `"emb:" + hashText(text)` shared by the embedding cache's
`Get`, `Set` and `Delete` (each computes it from the text alone, so the
three operations of one text always address the same entry). -/
def embKey (text : String) : String := embeddingKeyPrefix ++ hashText text

/-- C10: `Set` then `Get` of the same text hit the same entry and return
the cached embedding; `Delete` of the same text removes exactly that
entry; and a write under a different key leaves the cached entry
readable (the entry is retained until deleted or overwritten). -/
theorem embeddingCache_hash_addressing (st : RedisState) (text : String) (v : List Rat) :
    (∀ st2, embCacheSetS st text v = .ok st2 →
        embCacheGetS st2 text = some (encodeVec v)
      ∧ embCacheGetS (embCacheDeleteS st2 text) text = none
      ∧ (∀ key2 data2, key2 ≠ embKey text →
            embCacheGetS (redisSet st2 key2 data2) text = some (encodeVec v))) := by
  intro st2 h
  have hst2 : st2 = redisSet st (embKey text) (encodeVec v) := by
    simpa [embCacheSetS, embKey] using h.symm
  subst hst2
  refine ⟨?_, ?_, ?_⟩
  · simp [embCacheGetS, redisGet, redisSet, embKey, List.lookup]
  · exact lookup_filter_ne _ _
  · intro key2 data2 hne
    show List.lookup (embeddingKeyPrefix ++ hashText text)
        ((key2, data2) :: List.filter (fun kv => kv.1 ≠ key2)
          (redisSet st (embKey text) (encodeVec v))) = some (encodeVec v)
    have hbeq : ((embeddingKeyPrefix ++ hashText text) == key2) = false := by
      simp only [beq_eq_false_iff_ne, ne_eq]
      exact fun hk => hne (by simpa [embKey] using hk.symm)
    simp only [List.lookup, hbeq]
    rw [lookup_filter_other _ _ _ (fun hk => hne (by simpa [embKey] using hk.symm))]
    simp [redisSet, embKey, List.lookup]

/-! ## C7 — size-limit validation covers only the document namespace -/

theorem redisGet_redisSet_self (st : RedisState) (k d : String) :
    redisGet (redisSet st k d) k = some d := by
  simp [redisGet, redisSet, List.lookup]

def c7BigSessionID : String := String.mk (List.replicate 1025 'a')

def c7BigSession : ChatSession := ⟨c7BigSessionID, "", 0, 0, []⟩

set_option maxRecDepth 100000 in
/-- C7 counterexample: a chat-session cache write whose key
(`"chat:" + sessionID`) is 1030 bytes — over the 1 KB limit — does not
fail with a size-limit error and is stored: `SetSession` calls the backend
directly, never `setWithValidation`. -/
theorem chatSession_oversized_key_write_succeeds :
    (chatSessionKeyPrefix ++ c7BigSessionID).utf8ByteSize > maxKeySize
  ∧ chatCacheSetSessionS [] c7BigSession
      = .ok [(chatSessionKeyPrefix ++ c7BigSessionID, encodeSession c7BigSession)] :=
  ⟨by decide, rfl⟩

/-- C7 (amended): only the document cache's write path goes through size
validation — an oversized key or serialised value there fails with a
size-limit error and stores nothing, and the operation that attempted the
write still proceeds (`Chat` discards every cache-write result); the
embedding, search-result and chat-session writes reach the backend with no
size validation and are stored whatever their size. -/
theorem cache_size_validation_document_path_only (st : RedisState) (doc : Document)
    (text : String) (v : List Rat) (query : String) (limit : Nat) (docs : List Document)
    (session : ChatSession) (env : Env) (message : String)
    (f : Document → Except String Unit) (g : String → List Rat → Except String Unit) :
    (((documentKeyPrefix ++ doc.id).utf8ByteSize > maxKeySize
        ∨ (encodeDoc doc).utf8ByteSize > maxValueSize) →
      ∃ e, docCacheSetS st doc = Except.error e)
  ∧ (∃ st2, embCacheSetS st text v = .ok st2
        ∧ redisGet st2 (embeddingKeyPrefix ++ hashText text) = some (encodeVec v))
  ∧ (∃ st2, searchCacheSetS st query limit docs = .ok st2
        ∧ redisGet st2 (searchResultKeyPrefix ++ "query:" ++ query ++ ":limit:" ++ toString limit)
            = some (encodeDocs docs))
  ∧ (∃ st2, chatCacheSetSessionS st session = .ok st2
        ∧ redisGet st2 (chatSessionKeyPrefix ++ session.id) = some (encodeSession session))
  ∧ (chat { env with docCacheSet := f, embCacheSet := g } message).1 = (chat env message).1 := by
  refine ⟨?_, ⟨_, rfl, redisGet_redisSet_self _ _ _⟩, ⟨_, rfl, redisGet_redisSet_self _ _ _⟩,
    ⟨_, rfl, redisGet_redisSet_self _ _ _⟩, rfl⟩
  intro h
  unfold docCacheSetS setWithValidation
  by_cases hk : validateKeyOk (documentKeyPrefix ++ doc.id)
  · have hv : ¬ validateValueOk (encodeDoc doc) := by
      rcases h with h | h
      · exact absurd hk (by simpa [validateKeyOk, Nat.not_le] using h)
      · simpa [validateValueOk, Nat.not_le] using h
    simp [hk, hv]
  · simp [hk]

/-! ## C9 — worker-pool backpressure -/

/-- C9 counterexample: Go's `select` picks pseudo-randomly among READY
cases, and during shutdown the send case is still ready whenever the
buffered queue has a free slot — so a submission made while the pool is
shutting down may be accepted rather than rejected, and a still-running
worker may then execute it. Here, from a shut-down pool with an empty
queue of capacity 10, `Submit` can enqueue the job and a worker can run
it, contradicting "it is rejected and never executed". -/
theorem pool_shutdown_submit_may_be_accepted :
    PoolStep (⟨[], 10, true⟩ : PoolState Nat) (.submitted 0) ⟨[0], 10, true⟩
  ∧ PoolStep (⟨[0], 10, true⟩ : PoolState Nat) (.executed 0) ⟨[], 10, true⟩ :=
  ⟨PoolStep.submitAccept _ 0 (by decide), PoolStep.workerExec _ 0 [] rfl⟩

/-- C9 (amended): a submission is enabled exactly when a queue slot is
free or the pool is shutting down (with a full queue and a live pool the
submitter blocks); no step silently drops a queued job — a job leaves the
queue only by being executed; a live pool never rejects a submission; the
queue never exceeds its capacity; and the consumer's pool (5 workers) has
queue capacity 2×5 = 10.  During shutdown a submission may be rejected
and never executed, but may also still be accepted if a slot is free. -/
theorem workerPool_backpressure (J : Type) (s : PoolState J) (j : J) :
    ((∃ e s2, PoolStep s e s2 ∧ (e = PoolEvent.submitted j ∨ e = PoolEvent.rejected j))
        ↔ (s.queue.length < s.capacity ∨ s.down = true))
  ∧ (∀ e s2 x, PoolStep s e s2 → x ∈ s.queue → x ∈ s2.queue ∨ e = PoolEvent.executed x)
  ∧ (s.down = false → ∀ s2, ¬ PoolStep s (PoolEvent.rejected j) s2)
  ∧ (∀ e s2, PoolStep s e s2 → s.queue.length ≤ s.capacity → s2.queue.length ≤ s2.capacity)
  ∧ (newPoolState J consumerPoolWorkers).capacity = 10 := by
  refine ⟨⟨?_, ?_⟩, ?_, ?_, ?_, rfl⟩
  · rintro ⟨e, s2, hstep, he⟩
    cases hstep with
    | submitAccept j2 h => exact Or.inl h
    | submitReject j2 h => exact Or.inr h
    | workerExec j2 rest h => rcases he with he | he <;> simp at he
    | beginShutdown => rcases he with he | he <;> simp at he
  · rintro (h | h)
    · exact ⟨_, _, PoolStep.submitAccept s j h, Or.inl rfl⟩
    · exact ⟨_, _, PoolStep.submitReject s j h, Or.inr rfl⟩
  · intro e s2 x hstep hx
    cases hstep with
    | submitAccept j2 h => exact Or.inl (List.mem_append_left _ hx)
    | submitReject j2 h => exact Or.inl hx
    | workerExec j2 rest h =>
        rw [h] at hx
        rcases List.mem_cons.mp hx with rfl | hx2
        · exact Or.inr rfl
        · exact Or.inl hx2
    | beginShutdown => exact Or.inl hx
  · intro hdown s2 hstep
    cases hstep with
    | submitReject j2 h => rw [hdown] at h; exact absurd h (by simp)
  · intro e s2 hstep hle
    cases hstep with
    | submitAccept j2 h => simpa using h
    | submitReject j2 h => exact hle
    | workerExec j2 rest h =>
        have hlen : s.queue.length = rest.length + 1 := by rw [h]; rfl
        simpa using by omega
    | beginShutdown => exact hle

/-- Witness for C9: with a live pool and a full queue (10 jobs, capacity
10) no submit transition is enabled — the submitter blocks. -/
theorem workerPool_backpressure_example :
    ¬ (∃ e s2, PoolStep (⟨List.replicate 10 0, 10, false⟩ : PoolState Nat) e s2
          ∧ (e = PoolEvent.submitted 1 ∨ e = PoolEvent.rejected 1)) := by
  intro hx
  rcases (workerPool_backpressure Nat ⟨List.replicate 10 0, 10, false⟩ 1).1.mp hx with h | h
  · simp at h
  · simp at h

/-! ## C5 — URL deduplication -/

theorem length_insertByCreatedDesc (d : Document) (l : List Document) :
    (insertByCreatedDesc d l).length = l.length + 1 := by
  induction l with
  | nil => rfl
  | cons x xs ih =>
      unfold insertByCreatedDesc
      by_cases h : x.createdAt ≤ d.createdAt <;> simp [h, ih]

theorem length_sortByCreatedDesc (l : List Document) :
    (sortByCreatedDesc l).length = l.length := by
  induction l with
  | nil => rfl
  | cons x xs ih => simp [sortByCreatedDesc, length_insertByCreatedDesc, ih]

/-- The dedup search hits iff some stored document contains the URL
(case-insensitively) in its title, content or category. -/
theorem searchDocumentsP_hit_iff (rows : List Document) (query : String) (limit : Nat)
    (hl : 0 < limit) :
    0 < (searchDocumentsP rows query limit).length
      ↔ ∃ d ∈ rows, matchesQuery query d = true := by
  unfold searchDocumentsP
  rw [List.length_take, length_sortByCreatedDesc]
  constructor
  · intro h
    have hpos : 0 < (rows.filter (matchesQuery query)).length :=
      Nat.lt_of_lt_of_le h (Nat.min_le_right _ _)
    obtain ⟨d, hd⟩ := List.exists_mem_of_length_pos hpos
    exact ⟨d, (List.mem_filter.mp hd).1, (List.mem_filter.mp hd).2⟩
  · rintro ⟨d, hmem, hq⟩
    exact lt_min hl (List.length_pos_of_mem (List.mem_filter.mpr ⟨hmem, hq⟩))

/-- A typical W3Schools extraction: the page URL appears in the scraped
`metadata` only — exactly what `extractMetadata`/`ConvertToDocument`
produce — never in title, content or category. -/
def c5ScrapedContent (tick : Nat) : ScrapedContent :=
  { url := "https://www.w3schools.com/html/x", title := "HTML Tutorial",
    content := "Learn HTML basics.", category := "HTML",
    tags := ["HTML", "tutorial", "documentation", "w3schools"], examples := [],
    metadata := [("author", "W3Schools"), ("source", "W3Schools"),
                 ("url", "https://www.w3schools.com/html/x")],
    timestamp := tick }

/-- A healthy environment for concrete runs: every backend succeeds, the
scrapers return `c5ScrapedContent`. -/
def trivialEnv : Env :=
  { embCacheGet := fun _ => .error "cache miss",
    embCacheSet := fun _ _ => .ok (),
    embed := fun _ => .ok [1],
    complete := fun _ => .ok "ok",
    searchVector := fun _ _ => .ok [],
    docCacheGet := fun _ => .ok none,
    docCacheSet := fun _ => .ok (),
    docStoreGet := fun _ => .ok none,
    docPutErr := fun _ => none,
    vecPutErr := fun _ _ => none,
    searchCacheDelete := fun _ => .ok (),
    sessGet := fun _ => .ok none,
    sessSet := fun _ => .ok (),
    addMessageErr := fun _ _ => none,
    scrapeW3 := fun _ tick => .ok (c5ScrapedContent tick),
    scrapeUniversal := fun _ tick => .ok (c5ScrapedContent tick),
    now := 0 }

def c5Job : ScrapeJob := ⟨"https://www.w3schools.com/html/x", "HTML", [], "job_1"⟩

/-- C5 counterexample: two `ScrapeJob`s for the same URL produce TWO
documents, not one. The dedup search looks for the URL as free text in
title/content/category, but the stored document carries its URL only in
`metadata` (which `SearchDocuments` does not search), so the second job's
search misses and the job is fully re-processed, storing a second
document (`w3s_1` and `w3s_2`). -/
theorem scrape_same_url_twice_two_documents :
    (processMessage trivialEnv ⟨[], []⟩ c5Job 1).docs.length = 1
  ∧ (processMessage trivialEnv (processMessage trivialEnv ⟨[], []⟩ c5Job 1) c5Job 2).docs.length = 2 :=
  ⟨rfl, rfl⟩

/-- C5 (amended): the pipeline does search the Document Store for the
job's URL as a free-text query with limit 1 before extracting, and any
hit skips the job entirely as a no-op — but the search matches only
title, content and category, so submitting two jobs for one URL yields a
single document only when the document stored by the first job contains
the URL in one of those fields; otherwise the second job is re-processed
and a second document is stored. -/
theorem scrape_dedup_requires_textual_match (env : Env) (w : World) (job : ScrapeJob)
    (tick : Nat) :
    ((∃ d ∈ w.docs, matchesQuery job.url d = true) → processMessage env w job tick = w)
  ∧ (0 < (searchDocumentsP w.docs job.url 1).length
        ↔ ∃ d ∈ w.docs, matchesQuery job.url d = true) := by
  have hiff := searchDocumentsP_hit_iff w.docs job.url 1 (by decide)
  refine ⟨?_, hiff⟩
  intro h
  unfold processMessage
  rw [if_pos (hiff.mpr h)]

/-! ## C1 — the 0.7 threshold gate -/

/-- The claim's contribution condition, stated from the spec's words (a
refinement-side definition, to be compared with the source-translated
loops): a search result contributes exactly the `"Title: …\nContent: …"`
entry of its resolved document iff its `document_id` metadata is a string
that resolves through the document cache-then-store path to an existing
document AND its similarity score strictly exceeds 0.7; otherwise it
contributes nothing. -/
def specContextEntry (env : Env) (result : SearchResult) : Option String :=
  match List.lookup "document_id" result.metadata with
  | some (MetaVal.str docID) =>
      match getDocumentWithCache env docID with
      | .ok (some doc) =>
          if result.score > (7 : Rat) / 10 then some (contextEntry doc) else none
      | _ => none
  | _ => none

theorem chatContextFold_go (env : Env) (rs : List SearchResult)
    (a b : List String) (h : Bool) :
    (rs.foldl (chatContextStep env) (a, b, h)).1
      = a ++ rs.filterMap (specContextEntry env) := by
  induction rs generalizing a b h with
  | nil => simp
  | cons r rest ih =>
      rw [List.foldl_cons, List.filterMap_cons]
      cases hl : List.lookup "document_id" r.metadata with
      | none =>
          simp only [chatContextStep, specContextEntry, hl]
          simpa using ih a b h
      | some mv =>
          cases mv with
          | str docID =>
              cases hg : getDocumentWithCache env docID with
              | error e =>
                  simp only [chatContextStep, specContextEntry, hl, hg]
                  simpa using ih a b h
              | ok od =>
                  cases od with
                  | none =>
                      simp only [chatContextStep, specContextEntry, hl, hg]
                      simpa using ih a b h
                  | some doc =>
                      by_cases hs : r.score > (7 : Rat) / 10
                      · simp only [chatContextStep, specContextEntry, hl, hg, hs, if_true]
                        rw [ih]
                        simp
                      · simp only [chatContextStep, specContextEntry, hl, hg, hs, if_false]
                        simpa using ih a b h
          | strList l =>
              simp only [chatContextStep, specContextEntry, hl]
              simpa using ih a b h
          | boolv bb =>
              simp only [chatContextStep, specContextEntry, hl]
              simpa using ih a b h

theorem historyContextFold_go (env : Env) (rs : List SearchResult)
    (a : List String) (h : Bool) :
    (rs.foldl (historyContextStep env) (a, h)).1
      = a ++ rs.filterMap (specContextEntry env) := by
  induction rs generalizing a h with
  | nil => simp
  | cons r rest ih =>
      rw [List.foldl_cons, List.filterMap_cons]
      cases hl : List.lookup "document_id" r.metadata with
      | none =>
          simp only [historyContextStep, specContextEntry, hl]
          simpa using ih a h
      | some mv =>
          cases mv with
          | str docID =>
              cases hg : getDocumentWithCache env docID with
              | error e =>
                  simp only [historyContextStep, specContextEntry, hl, hg]
                  simpa using ih a h
              | ok od =>
                  cases od with
                  | none =>
                      simp only [historyContextStep, specContextEntry, hl, hg]
                      simpa using ih a h
                  | some doc =>
                      by_cases hs : r.score > (7 : Rat) / 10
                      · simp only [historyContextStep, specContextEntry, hl, hg, hs, if_true]
                        rw [ih]
                        simp
                      · simp only [historyContextStep, specContextEntry, hl, hg, hs, if_false]
                        simpa using ih a h
          | strList l =>
              simp only [historyContextStep, specContextEntry, hl]
              simpa using ih a h
          | boolv bb =>
              simp only [historyContextStep, specContextEntry, hl]
              simpa using ih a h

/-- C1: in both `Chat` and `ChatWithHistory` the context assembled from
the top-5 vector search is exactly the entries of the results whose score
strictly exceeds 0.7 and whose `document_id` resolves to an existing
document (`specContextEntry`); results failing either condition are
dropped, and dropping them cannot fail the request — when embedding,
search and completion succeed, the request succeeds whatever the loop
dropped. -/
theorem chat_context_threshold_gate (env : Env) (results : List SearchResult)
    (msg sessionID : String) (v : List Rat) (rs : List SearchResult)
    (resp : String) (s : Option ChatSession) :
    (chatContextFold env results).1 = results.filterMap (specContextEntry env)
  ∧ (historyContextFold env results).1 = results.filterMap (specContextEntry env)
  ∧ (cacheOrEmbed env msg = .ok v → env.searchVector v 5 = .ok rs →
      env.complete (chatPrompt env msg rs) = .ok resp → (chat env msg).1 = .ok resp)
  ∧ (env.sessGet sessionID = .ok s → env.embed msg = .ok v →
      env.searchVector v 5 = .ok rs →
      env.complete (historyPrompt env msg (getHistoryFromSession s 10) rs) = .ok resp →
      (chatWithHistory env sessionID msg).1 = .ok resp) := by
  refine ⟨chatContextFold_go env results [] [] false, historyContextFold_go env results [] false,
    ?_, ?_⟩
  · intro h1 h2 h3
    simp [chat, h1, h2, h3]
  · intro h1 h2 h3 h4
    cases s with
    | none => simp [chatWithHistory, getChatSessionSvc, getChatHistorySvc, h1, h2, h3, h4]
    | some sess => simp [chatWithHistory, getChatSessionSvc, getChatHistorySvc, h1, h2, h3, h4]

/-- Witness for C1 at the spec's boundary scores: with two results over a
resolvable document, score 0.7 is excluded and score 0.70001 included. -/
def c1Doc : Document := ⟨"d1", "CSS", "CSS is a stylesheet language.", "CSS", [], "a", 1, 1, []⟩

def c1Env : Env :=
  { trivialEnv with
    docStoreGet := fun id =>
      if id = "d1" then Except.ok (some c1Doc) else Except.ok none }

def c1AtThreshold : SearchResult := ⟨"v1", (7 : Rat) / 10, [("document_id", .str "d1")]⟩

def c1AboveThreshold : SearchResult := ⟨"v2", (70001 : Rat) / 100000, [("document_id", .str "d1")]⟩

/-- Witness for C1: the boundary test `s = 0.7` (excluded) and
`s = 0.70001` (included). -/
theorem chat_context_threshold_gate_example :
    (chatContextFold c1Env [c1AtThreshold, c1AboveThreshold]).1
      = [contextEntry c1Doc]
  ∧ (historyContextFold c1Env [c1AtThreshold, c1AboveThreshold]).1
      = [contextEntry c1Doc] := by
  have h := chat_context_threshold_gate c1Env [c1AtThreshold, c1AboveThreshold]
    "" "" [] [] "" none
  have e1 : specContextEntry c1Env c1AtThreshold = none := by
    simp only [specContextEntry, c1AtThreshold, getDocumentWithCache, c1Env, trivialEnv,
      List.lookup]
    norm_num
  have e2 : specContextEntry c1Env c1AboveThreshold = some (contextEntry c1Doc) := by
    simp only [specContextEntry, c1AboveThreshold, getDocumentWithCache, c1Env, trivialEnv,
      List.lookup]
    norm_num
  refine ⟨?_, ?_⟩
  · rw [h.1]
    simp [e1, e2]
  · rw [h.2.1]
    simp [e1, e2]

/-! ## C2 — `Chat`'s error surface -/

theorem cacheOrEmbed_error_iff (env : Env) (t : String) :
    (∃ e, cacheOrEmbed env t = .error e)
      ↔ ((∃ e, env.embCacheGet t = .error e) ∧ (∃ e, env.embed t = .error e)) := by
  unfold cacheOrEmbed
  cases hg : env.embCacheGet t with
  | ok v => simp [hg]
  | error e =>
      cases hm : env.embed t with
      | ok v => simp [hg, hm]
      | error e2 => simp [hg, hm]

/-- C2: `Chat` returns an error exactly when one of its three
answer-critical calls fails — embedding the query (reached only after an
embedding-cache miss/error), the top-5 vector search, or the completion
call; and the answer is wholly independent of every cache write, of the
search-cache invalidation, and of the document/vector stores the detached
learning write-back uses, so no cache write error and no learning
write-back failure is ever surfaced. -/
theorem chat_error_characterization (env : Env) (message : String) :
    ((∃ e, (chat env message).1 = .error e) ↔
      (((∃ e, env.embCacheGet message = .error e) ∧ (∃ e, env.embed message = .error e))
        ∨ (∃ v, cacheOrEmbed env message = .ok v ∧ ∃ e, env.searchVector v 5 = .error e)
        ∨ (∃ v rs, cacheOrEmbed env message = .ok v ∧ env.searchVector v 5 = .ok rs
              ∧ ∃ e, env.complete (chatPrompt env message rs) = .error e)))
  ∧ (∀ f g h k l m,
      (chat { env with
          embCacheSet := f, docCacheSet := g, docPutErr := h,
          vecPutErr := k, searchCacheDelete := l, addMessageErr := m } message).1
        = (chat env message).1) := by
  constructor
  · cases hce : cacheOrEmbed env message with
    | error e =>
        have hlhs : (chat env message).1 = .error ("failed to embed query: " ++ e) := by
          simp [chat, hce]
        constructor
        · intro _
          exact Or.inl ((cacheOrEmbed_error_iff env message).mp ⟨e, hce⟩)
        · intro _
          exact ⟨_, hlhs⟩
    | ok v =>
        cases hsv : env.searchVector v 5 with
        | error e =>
            have hlhs : (chat env message).1 = .error ("failed to search vectors: " ++ e) := by
              simp [chat, hce, hsv]
            constructor
            · intro _
              exact Or.inr (Or.inl ⟨v, rfl, e, hsv⟩)
            · intro _
              exact ⟨_, hlhs⟩
        | ok rs =>
            cases hc : env.complete (chatPrompt env message rs) with
            | error e =>
                have hlhs : (chat env message).1
                    = .error ("failed to generate tutorial response: " ++ e) := by
                  simp [chat, hce, hsv, hc]
                constructor
                · intro _
                  exact Or.inr (Or.inr ⟨v, rs, rfl, hsv, e, hc⟩)
                · intro _
                  exact ⟨_, hlhs⟩
            | ok resp =>
                have hlhs : (chat env message).1 = .ok resp := by
                  simp [chat, hce, hsv, hc]
                constructor
                · rintro ⟨e, he⟩
                  rw [hlhs] at he
                  cases he
                · rintro (⟨h1, h2⟩ | ⟨v2, hv2, e2, hs2⟩ | ⟨v2, rs2, hv2, hs2, e2, hc2⟩)
                  · obtain ⟨e3, h3⟩ := (cacheOrEmbed_error_iff env message).mpr ⟨h1, h2⟩
                    rw [hce] at h3
                    simp at h3
                  · injection hv2 with hv2
                    subst hv2
                    rw [hsv] at hs2
                    simp at hs2
                  · injection hv2 with hv2
                    subst hv2
                    rw [hsv] at hs2
                    injection hs2 with hs2
                    subst hs2
                    rw [hc] at hc2
                    simp at hc2
  · intro f g h k l m
    rfl

/-! ## C3 — `ChatWithHistory` bypasses the embedding cache -/

def c3Env : Env :=
  { trivialEnv with
    embCacheGet := fun _ => .ok [1],
    embed := fun _ => .error "embedding service down",
    complete := fun _ => .ok "the answer" }

/-- C3 counterexample: in an environment whose embedding cache HOLDS the
message's vector while the Embedding Service is down, `Chat` still
answers (it uses the cached vector), but `ChatWithHistory` fails with an
embed error — because it calls `s.embClient.Embed(message)` directly and
never consults the embedding cache, contrary to the claim that it
performs the same cache-first step 1 as `Chat`. -/
theorem chatWithHistory_cache_hit_still_embeds :
    (chat c3Env "hi").1 = .ok "the answer"
  ∧ (chatWithHistory c3Env "s1" "hi").1
      = .error "failed to embed query: embedding service down" :=
  ⟨rfl, rfl⟩

/-- C3 (amended): `ChatWithHistory` resolves the query embedding by
calling the Embedding Service directly on every request — its behaviour
is independent of both the embedding-cache read and write oracles, and an
embedding failure always fails the request even when the cache holds the
vector; only `Chat` performs the cache-first resolution, using the cached
vector on a hit. -/
theorem chatWithHistory_embeds_directly (env : Env)
    (f : String → Except String (List Rat)) (g : String → List Rat → Except String Unit)
    (sessionID message : String) :
    chatWithHistory { env with embCacheGet := f, embCacheSet := g } sessionID message
        = chatWithHistory env sessionID message
  ∧ (∀ e s, env.sessGet sessionID = .ok s → env.embed message = .error e →
        (chatWithHistory env sessionID message).1
          = .error ("failed to embed query: " ++ e))
  ∧ (∀ v, env.embCacheGet message = .ok v → cacheOrEmbed env message = .ok v) := by
  refine ⟨rfl, ?_, ?_⟩
  · intro e s hs he
    cases s with
    | none => simp [chatWithHistory, getChatSessionSvc, getChatHistorySvc, hs, he]
    | some sess => simp [chatWithHistory, getChatSessionSvc, getChatHistorySvc, hs, he]
  · intro v hv
    simp [cacheOrEmbed, hv]

/-! ## C8 — a vector is stored only after its document -/

/-- C8: in each of the three vector-writing paths — the learning
write-back, `AddDocument` and the ingestion persist — either the vector
store is unchanged, or exactly one record was appended whose
`document_id` metadata names a document present in the (already updated)
document store; and when the document-store write fails the vector store
is untouched. -/
theorem vector_store_requires_document_store (env : Env) (w : World) (doc : Document)
    (q r url : String) (b : Bool) (now : Nat) :
    ((storeResponseForLearningW env w q r b now).vectors = w.vectors
      ∨ ∃ rec, (storeResponseForLearningW env w q r b now).vectors = w.vectors ++ [rec]
          ∧ ∃ docId, List.lookup "document_id" rec.metadata = some (MetaVal.str docId)
          ∧ ∃ d ∈ (storeResponseForLearningW env w q r b now).docs, d.id = docId)
  ∧ ((∃ e, env.docPutErr (storeDocumentGo (responseDocOf q r b now) now) = some e) →
        storeResponseForLearningW env w q r b now = w)
  ∧ ((addDocumentW env w doc now).1.vectors = w.vectors
      ∨ ∃ rec, (addDocumentW env w doc now).1.vectors = w.vectors ++ [rec]
          ∧ ∃ docId, List.lookup "document_id" rec.metadata = some (MetaVal.str docId)
          ∧ ∃ d ∈ (addDocumentW env w doc now).1.docs, d.id = docId)
  ∧ ((∃ e, env.docPutErr (storeDocumentGo doc now) = some e) →
        (addDocumentW env w doc now).1 = w)
  ∧ ((storeDocumentWithVectorW env w doc url now).1.vectors = w.vectors
      ∨ ∃ rec, (storeDocumentWithVectorW env w doc url now).1.vectors = w.vectors ++ [rec]
          ∧ ∃ docId, List.lookup "document_id" rec.metadata = some (MetaVal.str docId)
          ∧ ∃ d ∈ (storeDocumentWithVectorW env w doc url now).1.docs, d.id = docId)
  ∧ ((∃ e, env.docPutErr (storeDocumentGo doc now) = some e) →
        (storeDocumentWithVectorW env w doc url now).1 = w) := by
  refine ⟨?_, ?_, ?_, ?_, ?_, ?_⟩
  · cases hemb : env.embed r with
    | error e => exact Or.inl (by simp [storeResponseForLearningW, hemb])
    | ok vec =>
        cases hput : env.docPutErr (storeDocumentGo (responseDocOf q r b now) now) with
        | some e =>
            exact Or.inl (by simp [storeResponseForLearningW, storeDocumentP, hemb, hput])
        | none =>
            cases hvec : env.vecPutErr vec
                (learningMetadata (storeDocumentGo (responseDocOf q r b now) now) q) with
            | some e =>
                exact Or.inl
                  (by simp [storeResponseForLearningW, storeDocumentP, hemb, hput, hvec])
            | none =>
                refine Or.inr
                  ⟨⟨vec, learningMetadata (storeDocumentGo (responseDocOf q r b now) now) q⟩,
                    by simp [storeResponseForLearningW, storeDocumentP, hemb, hput, hvec],
                    (storeDocumentGo (responseDocOf q r b now) now).id,
                    by simp [learningMetadata, List.lookup], ?_⟩
                have hm := upsertRow_mem_id w.docs (storeDocumentGo (responseDocOf q r b now) now)
                simpa [storeResponseForLearningW, storeDocumentP, hemb, hput, hvec] using hm
  · rintro ⟨e, he⟩
    cases hemb : env.embed r with
    | error e2 => simp [storeResponseForLearningW, hemb]
    | ok vec => simp [storeResponseForLearningW, storeDocumentP, hemb, he]
  · cases hemb : cacheOrEmbed env doc.content with
    | error e => exact Or.inl (by simp [addDocumentW, hemb])
    | ok vec =>
        cases hput : env.docPutErr (storeDocumentGo doc now) with
        | some e => exact Or.inl (by simp [addDocumentW, storeDocumentP, hemb, hput])
        | none =>
            cases hvec : env.vecPutErr vec (addDocumentMetadata (storeDocumentGo doc now)) with
            | some e =>
                exact Or.inl (by simp [addDocumentW, storeDocumentP, hemb, hput, hvec])
            | none =>
                refine Or.inr ⟨⟨vec, addDocumentMetadata (storeDocumentGo doc now)⟩,
                  by simp [addDocumentW, storeDocumentP, hemb, hput, hvec],
                  (storeDocumentGo doc now).id,
                  by simp [addDocumentMetadata, List.lookup], ?_⟩
                have hm := upsertRow_mem_id w.docs (storeDocumentGo doc now)
                simpa [addDocumentW, storeDocumentP, hemb, hput, hvec] using hm
  · rintro ⟨e, he⟩
    cases hemb : cacheOrEmbed env doc.content with
    | error e2 => simp [addDocumentW, hemb]
    | ok vec => simp [addDocumentW, storeDocumentP, hemb, he]
  · cases hemb : env.embed doc.content with
    | error e => exact Or.inl (by simp [storeDocumentWithVectorW, hemb])
    | ok vec =>
        cases hput : env.docPutErr (storeDocumentGo doc now) with
        | some e =>
            exact Or.inl (by simp [storeDocumentWithVectorW, storeDocumentP, hemb, hput])
        | none =>
            cases hvec : env.vecPutErr vec (consumerVecMetadata (storeDocumentGo doc now)
                (if strContains url "w3schools.com" then "w3schools" else "universal")) with
            | some e =>
                exact Or.inl
                  (by simp [storeDocumentWithVectorW, storeDocumentP, hemb, hput, hvec])
            | none =>
                refine Or.inr ⟨⟨vec, consumerVecMetadata (storeDocumentGo doc now)
                    (if strContains url "w3schools.com" then "w3schools" else "universal")⟩,
                  by simp [storeDocumentWithVectorW, storeDocumentP, hemb, hput, hvec],
                  (storeDocumentGo doc now).id,
                  by simp [consumerVecMetadata, List.lookup], ?_⟩
                have hm := upsertRow_mem_id w.docs (storeDocumentGo doc now)
                simpa [storeDocumentWithVectorW, storeDocumentP, hemb, hput, hvec] using hm
  · rintro ⟨e, he⟩
    cases hemb : env.embed doc.content with
    | error e2 => simp [storeDocumentWithVectorW, hemb]
    | ok vec => simp [storeDocumentWithVectorW, storeDocumentP, hemb, he]

/-- Witness for C10: cache `[1, 2]` for `"hello"`, read it back, delete
it, miss. -/
theorem embeddingCache_hash_addressing_example :
    embCacheGetS (redisSet [] (embKey "hello") (encodeVec [1, 2])) "hello"
        = some (encodeVec [1, 2])
  ∧ embCacheGetS
        (embCacheDeleteS (redisSet [] (embKey "hello") (encodeVec [1, 2])) "hello") "hello"
      = none := by
  have h := embeddingCache_hash_addressing [] "hello" [1, 2]
    (redisSet [] (embKey "hello") (encodeVec [1, 2])) rfl
  exact ⟨h.1, h.2.1⟩

end TechDocsAI
